import Mathlib

/-!
Shallow embedding of the three automation scripts of this repository
(`scripts/create_company.py`, `scripts/archive_company.py`,
`scripts/generate_sites.py`), together with proofs of the behavioural
claims made about them.

Strings are modelled as Lean `String` / `List Char`.  The Python string
helpers the scripts rely on (`strip`, `lower`, `title`, truthiness of
strings, and regular-expression matching for the concrete patterns that
appear in the scripts) are embedded as executable functions.  ASCII
semantics are used for case conversion and whitespace, which is faithful
on every character the scripts inspect.

Filesystem and network effects are made explicit: the manifest file is a
value (`Manifest`), HTTP responses are an input stream (`Nat → ApiResult`,
one element per attempt), the random jitter of the retry loop is an input
stream `Nat → ℚ`, and the writes performed by `create_company.main` are
recorded as a list of `Effect`s.  A function that in Python would raise is
embedded with an `Except`/`Option` result, so "raises" is visible as an
`error`/`none` value.
-/

namespace Scripts

/-! ### Python string primitives -/

/-- Characters treated as whitespace by Python `str.strip()`, `str.split()`
and the regex class `\s` (ASCII range: space, tab, newline, carriage
return, vertical tab, form feed). -/
def isPyWs (c : Char) : Bool :=
  c == ' ' || c == '\t' || c == '\n' || c == '\r' || c == Char.ofNat 11 || c == Char.ofNat 12

/-- Python `s.strip()` on a list of characters. -/
def pyStrip (cs : List Char) : List Char :=
  ((cs.dropWhile isPyWs).reverse.dropWhile isPyWs).reverse

/-- Python `s.strip()` on a `String`. -/
def pyStripStr (s : String) : String := String.mk (pyStrip s.data)

/-- Python `s.lower()` (ASCII case folding). -/
def pyLower (cs : List Char) : List Char := cs.map Char.toLower

/-- Matches a literal regex pattern case-insensitively (the scripts compile
their patterns with `re.IGNORECASE`): strips `pat` from the front of the
input, comparing characters up to ASCII case, and returns the rest. -/
def stripPrefixCI : List Char → List Char → Option (List Char)
  | [], s => some s
  | _ :: _, [] => none
  | p :: ps, c :: cs => if p.toLower == c.toLower then stripPrefixCI ps cs else none

/-- ASCII decimal digit. -/
def isDigitC (c : Char) : Bool := '0' ≤ c && c ≤ '9'

/-! ### create_company.py — `slugify` -/

/-- Characters in the class `[a-z0-9]`. -/
def isLowerDigit (c : Char) : Bool :=
  ('a' ≤ c && c ≤ 'z') || ('0' ≤ c && c ≤ '9')

/-- Python `s.replace("&", "and")`. -/
def replaceAmp : List Char → List Char
  | [] => []
  | c :: rest =>
    if c == '&' then 'a' :: 'n' :: 'd' :: replaceAmp rest else c :: replaceAmp rest

/-- Embeds `re.sub(r"[^a-z0-9]+", "-", s)`: every maximal run of characters
outside `[a-z0-9]` becomes a single hyphen.  The boolean records whether
the previous character belonged to such a run (so the run's hyphen has
already been emitted). -/
def collapseNonAlnumGo : Bool → List Char → List Char
  | _, [] => []
  | inRun, c :: rest =>
    if isLowerDigit c then c :: collapseNonAlnumGo false rest
    else if inRun then collapseNonAlnumGo true rest
    else '-' :: collapseNonAlnumGo true rest

def collapseNonAlnum (cs : List Char) : List Char := collapseNonAlnumGo false cs

/-- Embeds `re.sub(r"(^-+|-+$)", "", s)`: removes the leading run and the
trailing run of hyphens. -/
def stripEdgeHyphens (cs : List Char) : List Char :=
  ((cs.dropWhile (· == '-')).reverse.dropWhile (· == '-')).reverse

/-- `slugify` from `scripts/create_company.py` (lines 41–46). -/
def slugify (s : String) : String :=
  let t0 := pyLower (pyStrip s.data)
  let t1 := replaceAmp t0
  let t2 := stripEdgeHyphens (collapseNonAlnum t1)
  if t2 = [] then "company" else String.mk t2

/-- Target format of slugs: non-empty, only `[a-z0-9-]`, and no hyphen at
either end.  This is the property side of claim C10, not code. -/
def isSlugChar (c : Char) : Bool := isLowerDigit c || c == '-'

def SlugFormat (s : String) : Prop :=
  s ≠ "" ∧ (∀ c ∈ s.data, isSlugChar c = true) ∧
    s.data.head? ≠ some '-' ∧ s.data.getLast? ≠ some '-'

instance (s : String) : Decidable (SlugFormat s) := by
  unfold SlugFormat
  infer_instance

/-! ### create_company.py — `parse_issue_body`

The pattern used by `find` is `\*\*{field}:\*\*\s*(.+)` with `re.IGNORECASE`
(and no `re.DOTALL`, so `.` excludes newlines).  `re.search` scans for the
leftmost position where the whole pattern matches; `\s*` is greedy but can
give characters back when `(.+)` would otherwise fail (which happens exactly
when everything after the whitespace run is exhausted). -/

/-- Match of the sub-pattern `(.+)` at the given input: at least one
character, none of them a newline, greedy. -/
def dotPlusAt (cs : List Char) : Option (List Char) :=
  match cs with
  | [] => none
  | c :: _ => if c == '\n' then none else some (cs.takeWhile (fun d => !(d == '\n')))

/-- Backtracking of `\s*` before `(.+)`: try to start `(.+)` after `j`
whitespace characters, for `j` from the greedy maximum down to `0`. -/
def tailSearch (rest : List Char) : Nat → Option (List Char)
  | 0 => dotPlusAt rest
  | j + 1 =>
    match dotPlusAt (rest.drop (j + 1)) with
    | some g => some g
    | none => tailSearch rest j

/-- Match of the pattern tail `\s*(.+)` at the given input, returning the
text captured by the group. -/
def matchFieldTail (rest : List Char) : Option (List Char) :=
  tailSearch rest (rest.takeWhile isPyWs).length

/-- `re.search` for `\*\*{label}:\*\*\s*(.+)` (IGNORECASE): leftmost
position where the labelled field matches; on a label hit whose tail fails,
scanning continues at the next position. -/
def searchField (lbl : List Char) : List Char → Option (List Char)
  | [] => none
  | c :: rest =>
    match stripPrefixCI lbl (c :: rest) with
    | some tl =>
      match matchFieldTail tl with
      | some g => some g
      | none => searchField lbl rest
    | none => searchField lbl rest

/-- The inner helper `find(field)` of `parse_issue_body`: the captured
group, stripped, or `""` when the pattern does not occur. -/
def find_field (field : String) (body : String) : String :=
  match searchField ("**".data ++ field.data ++ ":**".data) body.data with
  | some g => String.mk (pyStrip g)
  | none => ""

/-- The `CompanyRequest` dataclass. -/
structure CompanyRequest where
  name : String
  website : String := ""
  tone : String := "Professional"
deriving DecidableEq

/-- `parse_issue_body` from `scripts/create_company.py` (lines 49–70).
Raising `ValueError` is embedded as `Except.error`. -/
def parse_issue_body (body : String) : Except String CompanyRequest :=
  let name := find_field "Company name" body
  let website0 := find_field "Website" body
  let tone0 := find_field "Tone" body
  let tone := if tone0 = "" then "Professional" else tone0
  if name = "" then
    Except.error "Could not parse Company name from issue body"
  else
    let website := if website0 = "-" then "" else website0
    Except.ok { name := name, website := website, tone := tone }

/-! ### create_company.py — `fetch_site_text`

The HTTP GET, redirect handling and BeautifulSoup parsing are abstracted:
a `Page` holds the values the scraping layer would produce (title, meta
description and og:image already extracted and stripped; `bodyText` is the
raw `get_text` result before cleanup).  What is embedded from the source is
the control flow on an empty URL, the whitespace cleanup and the clamping
of the extracted text.  The result is a `List String` so that the *arity*
of the returned tuple — three values on the empty-URL early return, four
otherwise — is part of the model. -/

structure Page where
  title : String
  metaDesc : String
  bodyText : String
  ogImage : String
deriving DecidableEq

/-- Character class `[ \t]` of the first cleanup substitution. -/
def isSpaceTab (c : Char) : Bool := c == ' ' || c == '\t'

/-- Embeds `re.sub(r"[ \t]+", " ", text)`: every maximal run of spaces and
tabs becomes a single space.  The boolean records whether the previous
character belonged to such a run. -/
def collapseSpacesGo : Bool → List Char → List Char
  | _, [] => []
  | inRun, c :: rest =>
    if isSpaceTab c then
      (if inRun then collapseSpacesGo true rest else ' ' :: collapseSpacesGo true rest)
    else c :: collapseSpacesGo false rest

def collapseSpaces (cs : List Char) : List Char := collapseSpacesGo false cs

/-- Embeds `re.sub(r"\n{3,}", "\n\n", text)`: a maximal run of `k ≥ 3`
newlines becomes two; shorter runs are kept.  The counter is the number of
newlines already seen (and emitted, up to two) in the current run. -/
def collapseNewlinesGo : Nat → List Char → List Char
  | _, [] => []
  | n, c :: rest =>
    if c == '\n' then
      (if n < 2 then '\n' :: collapseNewlinesGo (n + 1) rest else collapseNewlinesGo n rest)
    else c :: collapseNewlinesGo 0 rest

def collapseNewlines (cs : List Char) : List Char := collapseNewlinesGo 0 cs

/-- The whitespace cleanup applied to the extracted text (lines 113–114 of
`create_company.py`): collapse space/tab runs, collapse blank-line runs,
then `strip()`. -/
def cleanText (cs : List Char) : List Char :=
  pyStrip (collapseNewlines (collapseSpaces cs))

/-- The clamping step (lines 115–116): truncate to `maxChars` characters and
append the one-character ellipsis marker when the text was longer. -/
def clampText (cs : List Char) (maxChars : Nat) : List Char :=
  if maxChars < (cleanText cs).length then (cleanText cs).take maxChars ++ ['…']
  else cleanText cs

/-- `fetch_site_text` from `scripts/create_company.py` (lines 73–118).
Note the source really does return a 3-tuple on the empty-URL early return
(line 78) and a 4-tuple otherwise (line 118). -/
def fetch_site_text (url : String) (page : Page) (maxChars : Nat := 12000) : List String :=
  if url = "" then ["", "", ""]
  else [page.title, page.metaDesc, String.mk (clampText page.bodyText.data maxChars),
        page.ogImage]

/-- The tuple unpacking `title, meta_desc, page_text, og_image = ...` in
`main` (line 404): succeeds exactly on a 4-element tuple; anything else
raises `ValueError` in Python, embedded as `none`. -/
def unpack4 (xs : List String) : Option (String × String × String × String) :=
  match xs with
  | [a, b, c, d] => some (a, b, c, d)
  | _ => none

/-! ### create_company.py — `openai_summary`

The HTTP layer is an input stream `resp : Nat → ApiResult` giving the
outcome of each attempt (1-based).  A response carries the status code,
the `retry-after` header, and the parsed JSON payload of the body
(`resp.json()`), which is inspected only on a 2xx status; `netError` is a
`requests.RequestException`.  `random.uniform(0, 0.75)` is an input stream
`jit : Nat → ℚ` (one draw per backoff computation).

Only `requests.RequestException` is caught inside the attempt loop
(line 228), so exceptions raised by the loop body itself — by `time.sleep`
on an invalid duration (lines 219 and 231) and by the JSON traversal of
lines 190–202 on an unexpected payload shape — escape `openai_summary`.
They are embedded as `Except.error`; an `ok` result carries the returned
string, the attempts made and the sleeps performed. -/

/-- Parsed JSON values, as produced by `resp.json()`. -/
inductive Json where
  | null
  | bool (b : Bool)
  | num (q : ℚ)
  | str (s : String)
  | arr (xs : List Json)
  | obj (fields : List (String × Json))

inductive ApiResult where
  | http (code : Nat) (retryAfter : Option String) (body : Json)
  | netError

/-- Python truthiness of a parsed-JSON value. -/
def jTruthy (v : Json) : Bool :=
  match v with
  | Json.null => false
  | Json.bool b => b
  | Json.num q => !(decide (q = 0))
  | Json.str s => !(s == "")
  | Json.arr xs => !xs.isEmpty
  | Json.obj fields => !fields.isEmpty

/-- Lookup in a parsed-JSON object; `json.loads` keeps the last of
duplicate keys. -/
def lookupLastField : List (String × Json) → String → Option Json
  | [], _ => none
  | kv :: rest, key =>
    (lookupLastField rest key).or (if kv.1 = key then some kv.2 else none)

/-- Python `v.get(key, dflt)`: only dictionaries have `.get`; on any other
value the attribute access raises `AttributeError` (uncaught in
`openai_summary`). -/
def jGetD (v : Json) (key : String) (dflt : Json) : Except String Json :=
  match v with
  | Json.obj fields => Except.ok ((lookupLastField fields key).getD dflt)
  | _ => Except.error "AttributeError: get"

/-- Python `for x in v` over a parsed-JSON value: lists yield their
elements, strings their one-character substrings, dictionaries their keys;
anything else raises `TypeError` (uncaught in `openai_summary`). -/
def pyIter (v : Json) : Except String (List Json) :=
  match v with
  | Json.arr xs => Except.ok xs
  | Json.str s => Except.ok (s.data.map fun c => Json.str (String.mk [c]))
  | Json.obj fields => Except.ok (fields.map fun kv => Json.str kv.1)
  | _ => Except.error "TypeError: not iterable"

/-- Python `==` between an arbitrary object and a string literal: true
exactly for the equal string. -/
def jIsStr (v : Json) (s : String) : Bool :=
  match v with
  | Json.str t => t == s
  | _ => false

/-- Python `a or b` on parsed-JSON values. -/
def pyOrJ (a b : Json) : Json := if jTruthy a then a else b

/-- Lines 197–200: a content element contributes
`c.get("text") or c.get("value") or ""` when its type tag is
`output_text` or `text` and the result is truthy. -/
def contentPart (c : Json) : Except String (List Json) := do
  let ty ← jGetD c "type" Json.null
  if jIsStr ty "output_text" || jIsStr ty "text" then
    let tx ← jGetD c "text" Json.null
    let vx ← jGetD c "value" Json.null
    let t := pyOrJ (pyOrJ tx vx) (Json.str "")
    if jTruthy t then Except.ok [t] else Except.ok []
  else Except.ok []

def contentParts : List Json → Except String (List Json)
  | [] => Except.ok []
  | c :: rest => do
    let ps ← contentPart c
    let qs ← contentParts rest
    Except.ok (ps ++ qs)

/-- Lines 193–200: an output item contributes its content parts when its
type tag is `message` (the `.get` runs before the `continue`, so a
non-dict item raises). -/
def itemParts (item : Json) : Except String (List Json) := do
  let ty ← jGetD item "type" Json.null
  if jIsStr ty "message" then do
    let content ← jGetD item "content" (Json.arr [])
    let cs ← pyIter content
    contentParts cs
  else Except.ok []

def collectParts : List Json → Except String (List Json)
  | [] => Except.ok []
  | item :: rest => do
    let ps ← itemParts item
    let qs ← collectParts rest
    Except.ok (ps ++ qs)

/-- Line 202's `" ".join(parts)` raises `TypeError` unless every collected
part is a string. -/
def allStrs : List Json → Option (List String)
  | [] => some []
  | Json.str s :: rest => (allStrs rest).map (s :: ·)
  | _ :: _ => none

/-- Python `time.sleep(q)`: raises `ValueError` for a negative duration —
uncaught at lines 219 and 231, where only `requests.RequestException` is
handled.  (For magnitudes beyond the platform's C time range `time.sleep`
raises `OverflowError`; that bound is platform-specific real-time
behaviour and is not modelled.) -/
def pySleep (q : ℚ) : Except String ℚ :=
  if q < 0 then Except.error "ValueError: sleep length must be non-negative"
  else Except.ok q

/-- The `fallback` closure of `openai_summary` (lines 130–136). -/
def fallback (companyName title metaDesc : String) : String :=
  if metaDesc ≠ "" ∧ 40 ≤ (pyStripStr metaDesc).length then pyStripStr metaDesc
  else if title ≠ "" then
    companyName ++ " — demo environment based on publicly available information."
  else "Demo environment for this company."

/-- Digit list to natural number. -/
def digitsToNat (ds : List Char) : Nat :=
  ds.foldl (fun acc c => 10 * acc + (c.toNat - '0'.toNat)) 0

/-- Models Python `float(s)` on finite decimal literals: optional
surrounding whitespace, optional sign, integer and/or fractional digits,
optional decimal exponent.  (`inf`, `nan` and digit-group underscores are
not modelled; they do not occur in `retry-after` headers.) -/
def parseFloatQ (s : String) : Option ℚ :=
  let cs0 := pyStrip s.data
  let sgn : ℚ := match cs0 with
    | '-' :: _ => -1
    | _ => 1
  let cs := match cs0 with
    | '+' :: rest => rest
    | '-' :: rest => rest
    | _ => cs0
  let ip := cs.takeWhile isDigitC
  let cs1 := cs.dropWhile isDigitC
  let fp := match cs1 with
    | '.' :: rest => rest.takeWhile isDigitC
    | _ => []
  let cs2 := match cs1 with
    | '.' :: rest => rest.dropWhile isDigitC
    | _ => cs1
  if ip.isEmpty && fp.isEmpty then none
  else
    let mant : ℚ := (digitsToNat ip : ℚ) + (digitsToNat fp : ℚ) / (10 : ℚ) ^ fp.length
    match cs2 with
    | [] => some (sgn * mant)
    | e :: rest =>
      if e == 'e' || e == 'E' then
        let esgn : ℤ := match rest with
          | '-' :: _ => -1
          | _ => 1
        let rest1 := match rest with
          | '+' :: r => r
          | '-' :: r => r
          | _ => rest
        let ed := rest1.takeWhile isDigitC
        let rest2 := rest1.dropWhile isDigitC
        if ed.isEmpty || !rest2.isEmpty then none
        else some (sgn * mant * (10 : ℚ) ^ (esgn * (digitsToNat ed : ℤ)))
      else none

/-- The backoff of line 218/230: `base_sleep * (2 ** (attempt - 1))` plus
the jitter draw, with `base_sleep = 1.5`. -/
def backoff (attempt : Nat) (j : ℚ) : ℚ := 3 / 2 * 2 ^ (attempt - 1) + j

/-- The retryable status codes of line 206. -/
def retryable (c : Nat) : Bool :=
  c == 429 || c == 500 || c == 502 || c == 503 || c == 504

/-- The sleep chosen on a retryable status (lines 207–219): the
`retry-after` header when present (truthy) and parseable as a float,
otherwise the exponential backoff. -/
def sleepChosen (ra : Option String) (attempt : Nat) (j : ℚ) : ℚ :=
  match ra with
  | some h =>
    if h = "" then backoff attempt j
    else
      match parseFloatQ h with
      | some q => q
      | none => backoff attempt j
  | none => backoff attempt j

/-- Python `str.split()` (split on whitespace runs, no empty words).  The
accumulator holds the current word reversed. -/
def pyWordsGo : List Char → List Char → List (List Char)
  | cur, [] => if cur.isEmpty then [] else [cur.reverse]
  | cur, c :: rest =>
    if isPyWs c then
      (if cur.isEmpty then pyWordsGo [] rest else cur.reverse :: pyWordsGo [] rest)
    else pyWordsGo (c :: cur) rest

def pyWords (cs : List Char) : List (List Char) := pyWordsGo [] cs

/-- The whitespace collapse of line 202:
`" ".join(" ".join(parts).split()).strip()`. -/
def collapseJoin (parts : List String) : String :=
  String.mk (pyStrip (List.intercalate [' ']
    (pyWords (List.intercalate [' '] (parts.map String.data)))))

/-- Lines 190–202: traverse the parsed payload collecting text parts and
build the collapsed summary string, propagating the exceptions of the
traversal and of the final `" ".join`. -/
def extractSummary (data : Json) : Except String String := do
  let out ← jGetD data "output" (Json.arr [])
  let items ← pyIter out
  let parts ← collectParts items
  match allStrs parts with
  | some ss => Except.ok (collapseJoin ss)
  | none => Except.error "TypeError: sequence item: expected str instance"

/-- Observable outcome of a completed `openai_summary` run: the returned
string, the number of attempts made against the endpoint, and the sleeps
performed (in order). -/
structure AttemptLog where
  result : String
  attempts : Nat
  sleeps : List ℚ
deriving DecidableEq

/-- The `for attempt in range(1, max_attempts + 1)` loop of lines 184–235,
with `max_attempts = 5`.  The second argument is the remaining number of
iterations; the fuel-exhausted case is the `return fallback()` after the
loop (line 235, unreachable when started with fuel 5).  `Except.error`
results are the exceptions that escape the loop: `time.sleep` on an
invalid duration and the payload traversal on an unexpected shape. -/
def summary_loop (fb : String) (resp : Nat → ApiResult) (jit : Nat → ℚ) :
    Nat → Nat → List ℚ → Except String AttemptLog
  | attempt, 0, acc => Except.ok ⟨fb, attempt - 1, acc⟩
  | attempt, fuel + 1, acc =>
    match resp attempt with
    | ApiResult.netError =>
      if attempt < 5 then
        match pySleep (backoff attempt (jit attempt)) with
        | Except.error e => Except.error e
        | Except.ok s => summary_loop fb resp jit (attempt + 1) fuel (acc ++ [s])
      else Except.ok ⟨fb, attempt, acc⟩
    | ApiResult.http code ra body =>
      if 200 ≤ code ∧ code < 300 then
        match extractSummary body with
        | Except.error e => Except.error e
        | Except.ok summary =>
          Except.ok ⟨if summary = "" then fb else summary, attempt, acc⟩
      else if retryable code then
        if attempt < 5 then
          match pySleep (sleepChosen ra attempt (jit attempt)) with
          | Except.error e => Except.error e
          | Except.ok s => summary_loop fb resp jit (attempt + 1) fuel (acc ++ [s])
        else Except.ok ⟨fb, attempt, acc⟩
      else Except.ok ⟨fb, attempt, acc⟩

/-- `openai_summary` from `scripts/create_company.py` (lines 121–235).  The
prompt construction (lines 144–178) only feeds the external call and does
not influence control flow, so it is not modelled beyond keeping the
`pageText` input. -/
def openai_summary (apiKey : String) (company : CompanyRequest)
    (title metaDesc _pageText : String) (resp : Nat → ApiResult) (jit : Nat → ℚ) :
    Except String AttemptLog :=
  let fb := fallback company.name title metaDesc
  if pyStripStr apiKey = "" then Except.ok ⟨fb, 0, []⟩
  else summary_loop fb resp jit 1 5 []

/-! ### Manifest entries

A manifest entry is a JSON object whose fields may be absent; `Option`
models presence.  (The scripts only ever store strings and a boolean in
these fields, so the JSON value level is typed.) -/

structure RawEntry where
  id : Option String := none
  name : Option String := none
  path : Option String := none
  description : Option String := none
  tag : Option String := none
  logoUrl : Option String := none
  archived : Option Bool := none
deriving DecidableEq

structure Manifest where
  updated : String
  sites : List RawEntry
deriving DecidableEq

/-- The logo-URL convention `f"{S3_BASE}/{slug}/logo.png"`. -/
def s3logo (slug : String) : String :=
  "https://sfdcdemoimages.s3.eu-west-1.amazonaws.com/" ++ slug ++ "/logo.png"

/-! ### create_company.py — `upsert_sites_json` -/

/-- The mutation applied to the found (or freshly created) entry in
`upsert_sites_json` (lines 374–377): set `name` and `description`,
`setdefault` `tag` and `logoUrl`. -/
def fUpd (slug nm summary : String) (e : RawEntry) : RawEntry :=
  { e with
    name := some nm
    description := some summary
    tag := some (e.tag.getD "Demo")
    logoUrl := some (e.logoUrl.getD (s3logo slug)) }

/-- The entry created when the slug is absent (line 371). -/
def newEntry (slug : String) : RawEntry :=
  { id := some slug, path := some ("/" ++ slug ++ "/") }

/-- Apply `f` to the first entry whose `id` equals the slug (the
`for s in sites ... break` loop of lines 364–368); `none` when no entry
matches. -/
def updateFirst (f : RawEntry → RawEntry) (slug : String) :
    List RawEntry → Option (List RawEntry)
  | [] => none
  | s :: rest =>
    if s.id = some slug then some (f s :: rest)
    else (updateFirst f slug rest).map (s :: ·)

/-- The sites-list transformation of `upsert_sites_json` (lines 359–380). -/
def upsert_sites (sites : List RawEntry) (slug nm summary : String) : List RawEntry :=
  match updateFirst (fUpd slug nm summary) slug sites with
  | some l => l
  | none => sites ++ [fUpd slug nm summary (newEntry slug)]

/-- `upsert_sites_json` from `scripts/create_company.py` (lines 348–382):
a missing or corrupt file is tolerated as the empty manifest, and the file
is rewritten with today's date stamp. -/
def upsert_sites_json (prev : Option Manifest) (slug nm summary today : String) : Manifest :=
  let sites := match prev with
    | some m => m.sites
    | none => []
  { updated := today, sites := upsert_sites sites slug nm summary }

/-! ### create_company.py — `main` -/

/-- Filesystem writes performed by `create_company.main`. -/
inductive Effect where
  | copyTemplate (slug : String)
  | writeScreenshot (slug : String)
  | writeIndex (slug : String)
  | upsertManifest (slug nm summary : String)
deriving DecidableEq

/-- `main` from `scripts/create_company.py` (lines 385–422).  The
filesystem is abstracted as `dirExists` (does `ROOT/slug` exist) and
`templateExists`; `shot` is the result of `maybe_take_screenshot` (which
writes the image file exactly when it returns a path).  The returned pair
is the list of writes performed, in order, and the exit status (or the
exception escaping `main`). -/
def create_main (issueBody : String) (dirExists : String → Bool) (templateExists : Bool)
    (page : Page) (apiKey : String) (resp : Nat → ApiResult) (jit : Nat → ℚ)
    (shot : Option String) : List Effect × Except String Nat :=
  if pyStripStr issueBody = "" then ([], Except.ok 0)
  else
    match parse_issue_body issueBody with
    | Except.error e => ([], Except.error e)
    | Except.ok req =>
      let slug := slugify req.name
      if dirExists slug then ([], Except.ok 0)
      else if !templateExists then ([], Except.error "Template folder not found")
      else
        match unpack4 (fetch_site_text req.website page) with
        | none => ([Effect.copyTemplate slug], Except.error "not enough values to unpack")
        | some (title, metaDesc, pageText, _og) =>
          match openai_summary apiKey req title metaDesc pageText resp jit with
          | Except.error e => ([Effect.copyTemplate slug], Except.error e)
          | Except.ok log =>
            let shotEff := match shot with
              | some _ => [Effect.writeScreenshot slug]
              | none => []
            ([Effect.copyTemplate slug] ++ shotEff ++
              [Effect.writeIndex slug, Effect.upsertManifest slug req.name log.result],
             Except.ok 0)

/-! ### archive_company.py -/

/-- Character class `[a-z0-9\-]` under `re.IGNORECASE` (the flag makes the
letter range match both cases). -/
def isIdCharCI (c : Char) : Bool :=
  ('a' ≤ c && c ≤ 'z') || ('A' ≤ c && c ≤ 'Z') || ('0' ≤ c && c ≤ '9') || c == '-'

/-- Match of the pattern tail `\s*([a-z0-9\-]+)` at the given input.  No
backtracking of `\s*` is needed: a whitespace character handed back could
never satisfy the character class. -/
def matchIdTail (rest : List Char) : Option (List Char) :=
  let afterWs := rest.dropWhile isPyWs
  let idPart := afterWs.takeWhile isIdCharCI
  if idPart.isEmpty then none else some idPart

/-- `re.search` for `\*\*Company id:\*\*\s*([a-z0-9\-]+)` (IGNORECASE). -/
def searchCompanyId : List Char → Option (List Char)
  | [] => none
  | c :: rest =>
    match stripPrefixCI "**Company id:**".data (c :: rest) with
    | some tl =>
      match matchIdTail tl with
      | some idPart => some idPart
      | none => searchCompanyId rest
    | none => searchCompanyId rest

/-- `parse_issue` from `scripts/archive_company.py` (lines 13–36). -/
def parse_issue (issueTitle issueBody : String) : Except String (String × String) :=
  let title := pyStripStr issueTitle
  let body := pyStripStr issueBody
  let action : Option String :=
    if "archive company:".data.isPrefixOf (pyLower title.data) then some "archive"
    else if "restore company:".data.isPrefixOf (pyLower title.data) then some "restore"
    else none
  let companyId := match searchCompanyId body.data with
    | some m => String.mk (pyStrip m)
    | none => ""
  match action with
  | none => Except.error "Could not parse action or Company id from issue."
  | some a =>
    if companyId = "" then Except.error "Could not parse action or Company id from issue."
    else Except.ok (a, companyId)

/-- The `for s in sites ... break` loop of `archive_company.main` (lines
53–61): set the archived flag on the first entry whose `id` matches;
`none` when no entry matches (the `found` check fails). -/
def setArchivedFirst : List RawEntry → String → Bool → Option (List RawEntry)
  | [], _, _ => none
  | s :: rest, cid, b =>
    if s.id = some cid then some ({ s with archived := some b } :: rest)
    else (setArchivedFirst rest cid b).map (s :: ·)

/-- `main` from `scripts/archive_company.py` (lines 39–71).  The manifest
file is a value: `none` models a missing file.  An `ok` result is the
manifest written back; every `error` path in the source raises *before*
the `write_text` call, so an `error` result means the file is untouched. -/
def archive_main (issueTitle issueBody : String) (file : Option Manifest) (today : String) :
    Except String Manifest :=
  match parse_issue issueTitle issueBody with
  | Except.error e => Except.error e
  | Except.ok (action, companyId) =>
    match file with
    | none => Except.error "assets/sites.json not found. Run generate_sites.py at least once."
    | some data =>
      match setArchivedFirst data.sites companyId (action == "archive") with
      | some sites2 => Except.ok { updated := today, sites := sites2 }
      | none => Except.error ("Company id " ++ companyId ++ " not found in assets/sites.json")

/-! ### generate_sites.py -/

/-- Python `old.get(key) or default` on string fields: the default is used
when the field is absent or falsy (empty). -/
def pyOrS (v : Option String) (d : String) : String :=
  match v with
  | some s => if s = "" then d else s
  | none => d

/-- Python `s.title()` (ASCII): uppercase a letter that follows a
non-letter, lowercase the rest.  The boolean records whether the previous
character was a letter. -/
def pyTitleGo : Bool → List Char → List Char
  | _, [] => []
  | prevAlpha, c :: rest =>
    if c.isAlpha then
      (if prevAlpha then c.toLower else c.toUpper) :: pyTitleGo true rest
    else c :: pyTitleGo false rest

def pyTitle (cs : List Char) : List Char := pyTitleGo false cs

/-- The default name `d.replace("-", " ").title()` (line 52). -/
def defaultName (d : String) : String :=
  String.mk (pyTitle (d.data.map (fun c => if c == '-' then ' ' else c)))

/-- The dictionary built by `load_existing` (lines 30–35): entries keyed by
truthy `id`, later entries overwriting earlier ones.  Embedded as lookup of
the last entry with the given (non-empty) id. -/
def lookupLastById : List RawEntry → String → Option RawEntry
  | [], _ => none
  | s :: rest, key =>
    (lookupLastById rest key).or (if s.id = some key ∧ key ≠ "" then some s else none)

/-- `load_existing` from `scripts/generate_sites.py` (lines 25–37): a
missing or unparseable file gives the empty dictionary. -/
def load_existing (prev : Option (List RawEntry)) (key : String) : Option RawEntry :=
  match prev with
  | none => none
  | some sites => lookupLastById sites key

/-- The entry built for directory `d` in the loop of lines 48–59. -/
def gen_entry (ex : String → Option RawEntry) (d : String) : RawEntry :=
  let old := (ex d).getD {}
  { id := some d
    name := some (pyOrS old.name (defaultName d))
    path := some ("/" ++ d ++ "/")
    description := some (old.description.getD "")
    tag := some (pyOrS old.tag "Demo")
    logoUrl := some (pyOrS old.logoUrl (s3logo d))
    archived := some (old.archived.getD false) }

/-- `main` from `scripts/generate_sites.py` (lines 40–62).  `dirs` is the
result of `detect_company_dirs()` (the sorted company folders on disk) and
`prev` the parsed previous manifest (`none` when missing/unparseable). -/
def generate_main (dirs : List String) (prev : Option (List RawEntry)) (today : String) :
    Manifest :=
  { updated := today, sites := dirs.map (gen_entry (load_existing prev)) }

/-! ## Helper lemmas -/

theorem head?_dropWhile_ne {α : Type} {p : α → Bool} {l : List α} {a : α}
    (h : (l.dropWhile p).head? = some a) : p a = false := by
  have hx := List.head?_dropWhile_not p l
  rw [h] at hx
  simpa using hx

theorem getLast?_dropWhile_of_ne_nil {α : Type} {p : α → Bool} {l : List α}
    (h : l.dropWhile p ≠ []) : (l.dropWhile p).getLast? = l.getLast? := by
  obtain ⟨t, ht⟩ := List.dropWhile_suffix p (l := l)
  conv_rhs => rw [← ht]
  rw [List.getLast?_append]
  cases hd : (l.dropWhile p).getLast? with
  | none => exact absurd (List.getLast?_eq_none_iff.mp hd) h
  | some x => simp

theorem mem_collapseNonAlnumGo :
    ∀ (b : Bool) (l : List Char) (c : Char), c ∈ collapseNonAlnumGo b l →
      isSlugChar c = true := by
  intro b l
  induction l generalizing b with
  | nil => intro c h; simp [collapseNonAlnumGo] at h
  | cons a rest ih =>
    intro c h
    simp only [collapseNonAlnumGo] at h
    by_cases ha : isLowerDigit a
    · rw [if_pos ha] at h
      rcases List.mem_cons.mp h with rfl | h
      · simp [isSlugChar, ha]
      · exact ih false c h
    · rw [if_neg ha] at h
      cases b with
      | true => exact ih true c (by simpa using h)
      | false =>
        rcases List.mem_cons.mp (by simpa using h) with rfl | h
        · simp [isSlugChar]
        · exact ih true c h

theorem stripEdgeHyphens_head {l : List Char} {a : Char}
    (h : (stripEdgeHyphens l).head? = some a) : (a == '-') = false := by
  unfold stripEdgeHyphens at h
  rw [List.head?_reverse] at h
  have hne : (l.dropWhile (· == '-')).reverse.dropWhile (· == '-') ≠ [] := by
    intro hnil
    rw [hnil] at h
    simp at h
  rw [getLast?_dropWhile_of_ne_nil hne, List.getLast?_reverse] at h
  exact head?_dropWhile_ne (p := fun x => x == '-') h

theorem stripEdgeHyphens_getLast {l : List Char} {a : Char}
    (h : (stripEdgeHyphens l).getLast? = some a) : (a == '-') = false := by
  unfold stripEdgeHyphens at h
  rw [List.getLast?_reverse] at h
  exact head?_dropWhile_ne (p := fun x => x == '-') h

theorem mem_stripEdgeHyphens {l : List Char} {c : Char}
    (h : c ∈ stripEdgeHyphens l) : c ∈ l := by
  unfold stripEdgeHyphens at h
  rw [List.mem_reverse] at h
  have h1 := (List.dropWhile_sublist (l := (l.dropWhile (· == '-')).reverse)
    (· == '-')).subset h
  rw [List.mem_reverse] at h1
  exact (List.dropWhile_sublist (l := l) (· == '-')).subset h1

theorem slugFormat_slugify (s : String) : SlugFormat (slugify s) := by
  unfold slugify
  set t2 := stripEdgeHyphens (collapseNonAlnum (replaceAmp (pyLower (pyStrip s.data)))) with ht2
  by_cases hnil : t2 = []
  · rw [if_pos hnil]
    decide
  · rw [if_neg hnil]
    refine ⟨?_, ?_, ?_, ?_⟩
    · intro h
      exact hnil (congrArg String.data h)
    · intro c hc
      exact mem_collapseNonAlnumGo false _ c (mem_stripEdgeHyphens hc)
    · intro h
      have := stripEdgeHyphens_head (l := collapseNonAlnum (replaceAmp (pyLower (pyStrip s.data)))) (a := '-') (by exact h)
      simp at this
    · intro h
      have := stripEdgeHyphens_getLast (l := collapseNonAlnum (replaceAmp (pyLower (pyStrip s.data)))) (a := '-') (by exact h)
      simp at this

/-! ## Claims -/

/-- C1: the claim says that on an empty website `fetch_site_text` returns
empty strings for all fields and that `main`, which unpacks four values
from it, proceeds without error.  The source instead returns a **3-tuple**
`("", "", "")` on the empty-URL early return (line 78), while `main`
(line 404) unpacks four values, so Python raises
`ValueError: not enough values to unpack` for every company without a
website.  This theorem evaluates the embedded code at the failing input:
the returned tuple has three components and the caller's 4-way unpacking
fails. -/
theorem c1_fetch_empty_url_arity (p : Page) :
    fetch_site_text "" p = ["", "", ""] ∧ unpack4 (fetch_site_text "" p) = none := by
  constructor <;> rfl

/-- C10: `slugify` always yields a non-empty string over `[a-z0-9-]` with
no hyphen at either end, maps `&` to `and` (so `"Acme & Co"` becomes
`"acme-and-co"`), returns the fixed `"company"` when the input reduces to
nothing, and hence every site-entry id the create workflow derives from a
parsed company name satisfies the slug format. -/
theorem c10_slugify_format :
    (∀ s : String, SlugFormat (slugify s)) ∧
    slugify "Acme & Co" = "acme-and-co" ∧
    (∀ s : String,
      stripEdgeHyphens (collapseNonAlnum (replaceAmp (pyLower (pyStrip s.data)))) = [] →
        slugify s = "company") ∧
    (∀ body req, parse_issue_body body = Except.ok req → SlugFormat (slugify req.name)) := by
  refine ⟨slugFormat_slugify, by decide, ?_, ?_⟩
  · intro s h
    simp [slugify, h]
  · intro body req _
    exact slugFormat_slugify req.name

/-- Closed witness for C10: the format holds at a concrete input, the
empty-reduction case yields `"company"`, and a concrete parsed issue body
yields a format-conforming id. -/
theorem c10_slugify_format_witness :
    SlugFormat (slugify "Hello, World!") ∧ slugify "???" = "company" ∧
    SlugFormat (slugify (CompanyRequest.name ⟨"Acme & Co", "", "Professional"⟩)) :=
  ⟨c10_slugify_format.1 "Hello, World!",
   c10_slugify_format.2.2.1 "???" (by decide),
   c10_slugify_format.2.2.2 "**Company name:** Acme & Co"
     ⟨"Acme & Co", "", "Professional"⟩ (by rfl)⟩

/-! ## C3, C9, C4: helpers -/

theorem dropWhile_replicate_a (p : Char → Bool) (hp : p 'a' = false) (n : Nat) :
    List.dropWhile p (List.replicate n 'a') = List.replicate n 'a' := by
  cases n with
  | zero => rfl
  | succ k =>
    rw [List.replicate_succ]
    exact List.dropWhile_cons_of_neg (by simp [hp])

theorem pyStrip_replicate_a (n : Nat) :
    pyStrip (List.replicate n 'a') = List.replicate n 'a' := by
  unfold pyStrip
  rw [dropWhile_replicate_a isPyWs (by decide) n, List.reverse_replicate,
    dropWhile_replicate_a isPyWs (by decide) n, List.reverse_replicate]

theorem collapseSpacesGo_replicate_a (n : Nat) :
    ∀ b : Bool, collapseSpacesGo b (List.replicate n 'a') = List.replicate n 'a' := by
  induction n with
  | zero => intro b; rfl
  | succ k ih =>
    intro b
    rw [List.replicate_succ]
    simp only [collapseSpacesGo]
    rw [if_neg (by decide : ¬ (isSpaceTab 'a' = true))]
    rw [ih false]

theorem collapseNewlinesGo_replicate_a (n : Nat) :
    ∀ m : Nat, collapseNewlinesGo m (List.replicate n 'a') = List.replicate n 'a' := by
  induction n with
  | zero => intro m; rfl
  | succ k ih =>
    intro m
    rw [List.replicate_succ]
    simp only [collapseNewlinesGo]
    rw [if_neg (by decide : ¬ (('a' == '\n') = true))]
    rw [ih 0]

theorem cleanText_replicate_a (n : Nat) :
    cleanText (List.replicate n 'a') = List.replicate n 'a' := by
  unfold cleanText collapseSpaces collapseNewlines
  rw [collapseSpacesGo_replicate_a n false, collapseNewlinesGo_replicate_a n 0,
    pyStrip_replicate_a n]

theorem setArchivedFirst_none {sites : List RawEntry} {cid : String} {b : Bool}
    (h : ∀ e ∈ sites, e.id ≠ some cid) : setArchivedFirst sites cid b = none := by
  induction sites with
  | nil => rfl
  | cons s rest ih =>
    simp only [setArchivedFirst]
    rw [if_neg (h s (List.mem_cons_self s rest))]
    rw [ih fun e he => h e (List.mem_cons_of_mem s he)]
    rfl

/-! ## C3 -/

/-- C3: with no API key configured (the environment value strips to the
empty string) `openai_summary` makes zero attempts against the endpoint,
performs no sleeps, and returns the fallback — the stripped meta
description when that is at least 40 characters, otherwise a sentence
referencing the company name when a page title was found, otherwise the
fixed generic sentence.  The no-key early return (lines 138–140) reaches
only pure code, so the result is an `ok` value: this path never raises. -/
theorem c3_openai_summary_no_key_fallback (key : String) (company : CompanyRequest)
    (title metaDesc pageText : String) (resp : Nat → ApiResult) (jit : Nat → ℚ)
    (hkey : pyStripStr key = "") :
    openai_summary key company title metaDesc pageText resp jit =
      Except.ok ⟨fallback company.name title metaDesc, 0, []⟩ ∧
    (metaDesc ≠ "" ∧ 40 ≤ (pyStripStr metaDesc).length →
      fallback company.name title metaDesc = pyStripStr metaDesc) ∧
    (¬(metaDesc ≠ "" ∧ 40 ≤ (pyStripStr metaDesc).length) → title ≠ "" →
      fallback company.name title metaDesc =
        company.name ++ " — demo environment based on publicly available information.") ∧
    (¬(metaDesc ≠ "" ∧ 40 ≤ (pyStripStr metaDesc).length) → title = "" →
      fallback company.name title metaDesc = "Demo environment for this company.") := by
  refine ⟨?_, ?_, ?_, ?_⟩
  · unfold openai_summary
    rw [if_pos hkey]
  · intro h
    unfold fallback
    rw [if_pos h]
  · intro h ht
    unfold fallback
    rw [if_neg h, if_pos ht]
  · intro h ht
    unfold fallback
    rw [if_neg h, if_neg (by simp [ht])]

/-- Closed witness for C3 at a concrete input: a key of blanks, an empty
meta description and a non-empty title give zero attempts, no sleeps, and
the name-referencing sentence. -/
theorem c3_openai_summary_no_key_fallback_witness :
    pyStripStr "   " = "" ∧
    openai_summary "   " ⟨"Acme", "", "Professional"⟩ "Acme Home" "" ""
        (fun _ => ApiResult.netError) (fun _ => 0) =
      Except.ok ⟨"Acme — demo environment based on publicly available information.", 0, []⟩ := by
  have H := c3_openai_summary_no_key_fallback "   " ⟨"Acme", "", "Professional"⟩
    "Acme Home" "" "" (fun _ => ApiResult.netError) (fun _ => 0) (by decide)
  refine ⟨by decide, ?_⟩
  rw [H.1, H.2.2.1 (by decide) (by decide)]
  rfl

/-! ## C9 -/

/-- C9: on a non-empty URL, when the cleaned extracted body text has 20000
characters, the text field (third component) of the fetcher's result is
exactly the 12000-character budget plus the one-character ellipsis marker:
length 12001, last character `…`, first 12000 characters those of the
cleaned text. -/
theorem c9_fetch_truncates_to_budget (url : String) (p : Page)
    (hurl : url ≠ "") (hlen : (cleanText p.bodyText.data).length = 20000) :
    ∃ t : String, (fetch_site_text url p)[2]? = some t ∧
      t.length = 12001 ∧ t.data.getLast? = some '…' ∧
      t.data.take 12000 = (cleanText p.bodyText.data).take 12000 := by
  have hcond : 12000 < (cleanText p.bodyText.data).length := by rw [hlen]; norm_num
  have hclamp : clampText p.bodyText.data 12000 =
      (cleanText p.bodyText.data).take 12000 ++ ['…'] := by
    unfold clampText
    rw [if_pos hcond]
  have htklen : ((cleanText p.bodyText.data).take 12000).length = 12000 := by
    rw [List.length_take, hlen]
    omega
  refine ⟨String.mk (clampText p.bodyText.data 12000), ?_, ?_, ?_, ?_⟩
  · unfold fetch_site_text
    rw [if_neg hurl]
    rfl
  · show (clampText p.bodyText.data 12000).length = 12001
    rw [hclamp, List.length_append, htklen]
    rfl
  · show (clampText p.bodyText.data 12000).getLast? = some '…'
    rw [hclamp]
    exact List.getLast?_concat _
  · show (clampText p.bodyText.data 12000).take 12000 =
      (cleanText p.bodyText.data).take 12000
    rw [hclamp, List.take_left' htklen]

/-- Closed witness for C9: a page whose body is 20000 copies of `a`. -/
theorem c9_fetch_truncates_to_budget_witness :
    (cleanText (String.mk (List.replicate 20000 'a')).data).length = 20000 ∧
    ∃ t : String,
      (fetch_site_text "https://acme.example"
        ⟨"T", "M", String.mk (List.replicate 20000 'a'), "I"⟩)[2]? = some t ∧
      t.length = 12001 ∧ t.data.getLast? = some '…' ∧
      t.data.take 12000 =
        (cleanText (String.mk (List.replicate 20000 'a')).data).take 12000 := by
  have hlen : (cleanText (String.mk (List.replicate 20000 'a')).data).length = 20000 := by
    show (cleanText (List.replicate 20000 'a')).length = 20000
    rw [cleanText_replicate_a, List.length_replicate]
  exact ⟨hlen, c9_fetch_truncates_to_budget "https://acme.example"
    ⟨"T", "M", String.mk (List.replicate 20000 'a'), "I"⟩ (by decide) hlen⟩

/-! ## C4 -/

/-- C4: for a slug absent from the manifest's sites list, the
archive/restore flow fails with the "not found" error.  In the embedding
an `Except.error` result is exactly the raising path of the source, which
occurs before the `write_text` call (line 68), so the manifest file is not
written. -/
theorem c4_toggle_unknown_slug_fails (issueTitle issueBody today : String)
    (m : Manifest) (action companyId : String)
    (hp : parse_issue issueTitle issueBody = Except.ok (action, companyId))
    (habs : ∀ e ∈ m.sites, e.id ≠ some companyId) :
    archive_main issueTitle issueBody (some m) today =
      Except.error ("Company id " ++ companyId ++ " not found in assets/sites.json") := by
  unfold archive_main
  rw [hp]
  simp only
  rw [setArchivedFirst_none habs]

/-- Closed witness for C4: an archive issue naming a slug not present in a
concrete manifest. -/
theorem c4_toggle_unknown_slug_fails_witness :
    parse_issue "Archive company: Acme" "**Company id:** acme" =
      Except.ok ("archive", "acme") ∧
    archive_main "Archive company: Acme" "**Company id:** acme"
        (some ⟨"2024-01-01", [{ id := some "zen" }]⟩) "2024-01-02" =
      Except.error ("Company id " ++ "acme" ++ " not found in assets/sites.json") := by
  refine ⟨by rfl, ?_⟩
  exact c4_toggle_unknown_slug_fails "Archive company: Acme" "**Company id:** acme"
    "2024-01-02" ⟨"2024-01-01", [{ id := some "zen" }]⟩ "archive" "acme" (by rfl)
    (by intro e he; simp at he; rw [he]; simp)

/-! ## C6: helpers -/

theorem upsert_sites_cons_match {s : RawEntry} {rest : List RawEntry} {slug nm sm : String}
    (h : s.id = some slug) :
    upsert_sites (s :: rest) slug nm sm = fUpd slug nm sm s :: rest := by
  unfold upsert_sites updateFirst
  rw [if_pos h]

theorem upsert_sites_cons_nomatch {s : RawEntry} {rest : List RawEntry} {slug nm sm : String}
    (h : ¬ s.id = some slug) :
    upsert_sites (s :: rest) slug nm sm = s :: upsert_sites rest slug nm sm := by
  have hstep : updateFirst (fUpd slug nm sm) slug (s :: rest) =
      (updateFirst (fUpd slug nm sm) slug rest).map (s :: ·) := by
    simp only [updateFirst]
    rw [if_neg h]
  unfold upsert_sites
  rw [hstep]
  cases hr : updateFirst (fUpd slug nm sm) slug rest with
  | none => simp
  | some l => simp

theorem upsert_frame (sites : List RawEntry) (slug nm sm : String) :
    ∀ (i : Nat) (e : RawEntry), sites[i]? = some e → e.id ≠ some slug →
      (upsert_sites sites slug nm sm)[i]? = some e := by
  induction sites with
  | nil =>
    intro i e hi
    simp at hi
  | cons s rest ih =>
    intro i e hi hne
    by_cases h : s.id = some slug
    · rw [upsert_sites_cons_match h]
      cases i with
      | zero =>
        rw [List.getElem?_cons_zero] at hi
        rw [← Option.some.inj hi] at hne
        exact absurd h hne
      | succ j =>
        rw [List.getElem?_cons_succ] at hi ⊢
        exact hi
    · rw [upsert_sites_cons_nomatch h]
      cases i with
      | zero =>
        rw [List.getElem?_cons_zero] at hi ⊢
        exact hi
      | succ j =>
        rw [List.getElem?_cons_succ] at hi ⊢
        exact ih j e hi hne

theorem fUpd_id (slug nm sm : String) (e : RawEntry) : (fUpd slug nm sm e).id = e.id := rfl

theorem upsert_find (sites : List RawEntry) (slug nm sm : String) :
    (upsert_sites sites slug nm sm).find? (fun e => e.id == some slug) =
      some (fUpd slug nm sm
        ((sites.find? (fun e => e.id == some slug)).getD (newEntry slug))) := by
  induction sites with
  | nil =>
    show (upsert_sites [] slug nm sm).find? _ = _
    unfold upsert_sites updateFirst
    simp [List.find?, newEntry, fUpd]
  | cons s rest ih =>
    by_cases h : s.id = some slug
    · rw [upsert_sites_cons_match h]
      rw [List.find?_cons_of_pos _ (by simp [fUpd_id, h]),
        List.find?_cons_of_pos _ (by simp [h])]
      simp
    · rw [upsert_sites_cons_nomatch h]
      rw [List.find?_cons_of_neg _ (by simp [h]), List.find?_cons_of_neg _ (by simp [h])]
      exact ih

/-! ## C6 -/

/-- C6: `upsert_sites_json` leaves every entry with a different id
unchanged (position-wise), always overwrites `name` and `description` of
the slug's entry with the supplied values, sets `tag`/`logoUrl` from the
previous entry's values with defaults only when absent, and across a
repeated call preserves the `tag` and `logoUrl` set by the first call
while again overwriting `name` and `description`. -/
theorem c6_upsert_preserves_tag_logo (sites : List RawEntry) (slug nm sm nm2 sm2 : String) :
    (∀ (i : Nat) (e : RawEntry), sites[i]? = some e → e.id ≠ some slug →
      (upsert_sites sites slug nm sm)[i]? = some e) ∧
    (∃ e1, (upsert_sites sites slug nm sm).find? (fun e => e.id == some slug) = some e1 ∧
      e1.name = some nm ∧ e1.description = some sm ∧
      (∀ e0, sites.find? (fun e => e.id == some slug) = some e0 →
        e1.tag = some (e0.tag.getD "Demo") ∧
        e1.logoUrl = some (e0.logoUrl.getD (s3logo slug)))) ∧
    (∀ e1 e2,
      (upsert_sites sites slug nm sm).find? (fun e => e.id == some slug) = some e1 →
      (upsert_sites (upsert_sites sites slug nm sm) slug nm2 sm2).find?
          (fun e => e.id == some slug) = some e2 →
      e2.tag = e1.tag ∧ e2.logoUrl = e1.logoUrl ∧
        e2.name = some nm2 ∧ e2.description = some sm2) := by
  refine ⟨upsert_frame sites slug nm sm, ?_, ?_⟩
  · refine ⟨_, upsert_find sites slug nm sm, rfl, rfl, ?_⟩
    intro e0 h0
    rw [h0]
    exact ⟨rfl, rfl⟩
  · intro e1 e2 h1 h2
    have H2 := upsert_find (upsert_sites sites slug nm sm) slug nm2 sm2
    rw [h1] at H2
    have he2 : e2 = fUpd slug nm2 sm2 e1 := by
      have := h2.symm.trans H2
      simpa using this
    have he1 : e1 = fUpd slug nm sm
        ((sites.find? (fun e => e.id == some slug)).getD (newEntry slug)) := by
      have := h1.symm.trans (upsert_find sites slug nm sm)
      simpa using this
    subst he2 he1
    refine ⟨?_, ?_, rfl, rfl⟩
    · simp [fUpd]
    · simp [fUpd]

/-- Closed witness for C6: an entry with a previously set `tag` keeps it,
`name`/`description` are overwritten, and a frame instance at a different
id is untouched. -/
theorem c6_upsert_preserves_tag_logo_witness :
    (∃ e1, (upsert_sites [{ id := some "acme", tag := some "Partner" }]
        "acme" "A1" "D1").find? (fun e => e.id == some "acme") = some e1 ∧
      e1.name = some "A1" ∧ e1.description = some "D1" ∧ e1.tag = some "Partner") ∧
    (upsert_sites [{ id := some "zen" }] "acme" "A1" "D1")[0]? =
      some { id := some "zen" } := by
  constructor
  · obtain ⟨e1, h1, hn, hd, hrest⟩ :=
      (c6_upsert_preserves_tag_logo [{ id := some "acme", tag := some "Partner" }]
        "acme" "A1" "D1" "A2" "D2").2.1
    refine ⟨e1, h1, hn, hd, ?_⟩
    have hh := hrest { id := some "acme", tag := some "Partner" } (by rfl)
    simpa using hh.1
  · exact (c6_upsert_preserves_tag_logo [{ id := some "zen" }] "acme" "A1" "D1"
      "A2" "D2").1 0 { id := some "zen" } (by rfl) (by simp)

/-! ## C5: helpers -/

theorem lookupLast_empty_key (l : List RawEntry) : lookupLastById l "" = none := by
  induction l with
  | nil => rfl
  | cons s rest ih =>
    simp only [lookupLastById, ih, Option.none_or]
    rw [if_neg]
    intro hc
    exact hc.2 rfl

theorem lookupLast_map_none {dirs : List String} {g : String → RawEntry}
    (hg : ∀ x, (g x).id = some x) {d : String} (hd : d ∉ dirs) :
    lookupLastById (dirs.map g) d = none := by
  induction dirs with
  | nil => rfl
  | cons a rest ih =>
    have hdr : d ∉ rest := fun h => hd (List.mem_cons_of_mem _ h)
    have hda : d ≠ a := fun h => hd (h ▸ List.mem_cons_self a rest)
    simp only [List.map_cons, lookupLastById, ih hdr, Option.none_or]
    rw [if_neg]
    intro hc
    exact hda (Option.some.inj ((hg a).symm.trans hc.1)).symm

theorem lookupLast_map_mem {dirs : List String} {g : String → RawEntry}
    (hg : ∀ x, (g x).id = some x) (hnd : dirs.Nodup) {d : String}
    (hd : d ∈ dirs) (hne : d ≠ "") :
    lookupLastById (dirs.map g) d = some (g d) := by
  induction dirs with
  | nil => cases hd
  | cons a rest ih =>
    obtain ⟨ha, hnr⟩ := List.nodup_cons.mp hnd
    simp only [List.map_cons, lookupLastById]
    rcases List.mem_cons.mp hd with rfl | hdr
    · rw [lookupLast_map_none hg ha, Option.none_or, if_pos ⟨hg d, hne⟩]
    · rw [ih hnr hdr]
      rfl

theorem pyOrS_idem (o : Option String) (d : String) :
    pyOrS (some (pyOrS o d)) d = pyOrS o d := by
  cases o with
  | none =>
    simp only [pyOrS]
    split <;> rfl
  | some s =>
    by_cases hs : s = ""
    · simp only [pyOrS, if_pos hs]
      split <;> rfl
    · simp only [pyOrS, if_neg hs]

/-! ## C5 -/

/-- C5: regenerating the manifest twice with the same directory listing
and no filesystem changes reproduces the same sites list; the two outputs
differ only in the `updated` date field.  (The serializer — `json.dumps`
with fixed options — is a function of the manifest value, so equal sites
lists give byte-identical output apart from `updated`.) -/
theorem c5_generate_idempotent (dirs : List String) (prev : Option (List RawEntry))
    (t1 t2 : String) (hnd : dirs.Nodup) :
    (generate_main dirs (some (generate_main dirs prev t1).sites) t2).sites =
      (generate_main dirs prev t1).sites ∧
    (generate_main dirs prev t1).updated = t1 ∧
    (generate_main dirs (some (generate_main dirs prev t1).sites) t2).updated = t2 := by
  refine ⟨?_, rfl, rfl⟩
  show dirs.map (gen_entry (load_existing (some (dirs.map (gen_entry (load_existing prev)))))) =
    dirs.map (gen_entry (load_existing prev))
  apply List.map_congr_left
  intro d hd
  by_cases hne : d = ""
  · subst hne
    have h2 : load_existing (some (dirs.map (gen_entry (load_existing prev)))) "" = none :=
      lookupLast_empty_key _
    have h1 : load_existing prev "" = none := by
      cases prev with
      | none => rfl
      | some sites => exact lookupLast_empty_key sites
    simp only [gen_entry, h1, h2]
  · have hg : ∀ x, (gen_entry (load_existing prev) x).id = some x := fun x => rfl
    have hlk : load_existing (some (dirs.map (gen_entry (load_existing prev)))) d =
        some (gen_entry (load_existing prev) d) :=
      lookupLast_map_mem hg hnd hd hne
    simp only [gen_entry]
    rw [hlk]
    simp only [Option.getD_some]
    simp [gen_entry, pyOrS_idem]

/-- Closed witness for C5 at a concrete directory listing. -/
theorem c5_generate_idempotent_witness :
    (["acme-ltd", "zen"] : List String).Nodup ∧
    (generate_main ["acme-ltd", "zen"]
        (some (generate_main ["acme-ltd", "zen"] none "2024-01-01").sites) "2024-02-02").sites =
      (generate_main ["acme-ltd", "zen"] none "2024-01-01").sites :=
  ⟨by decide,
   (c5_generate_idempotent ["acme-ltd", "zen"] none "2024-01-01" "2024-02-02" (by decide)).1⟩

/-! ## C7 -/

/-- C7: when the folder derived from the parsed company name already
exists, `create_company.main` returns before any filesystem write (the
`copytree`, page render and manifest update all come after the existence
check at lines 394–397) with exit status 0 and an empty effect list. -/
theorem c7_create_existing_folder_noop (issueBody : String) (dirExists : String → Bool)
    (templateExists : Bool) (page : Page) (apiKey : String) (resp : Nat → ApiResult)
    (jit : Nat → ℚ) (shot : Option String) (req : CompanyRequest)
    (hbody : ¬ pyStripStr issueBody = "")
    (hp : parse_issue_body issueBody = Except.ok req)
    (hex : dirExists (slugify req.name) = true) :
    create_main issueBody dirExists templateExists page apiKey resp jit shot =
      ([], Except.ok 0) := by
  unfold create_main
  rw [if_neg hbody, hp]
  simp [hex]

/-- Closed witness for C7 at a concrete issue body and a filesystem in
which every folder exists. -/
theorem c7_create_existing_folder_noop_witness :
    ¬ pyStripStr "**Company name:** Acme" = "" ∧
    parse_issue_body "**Company name:** Acme" =
      Except.ok ⟨"Acme", "", "Professional"⟩ ∧
    create_main "**Company name:** Acme" (fun _ => true) true ⟨"", "", "", ""⟩ ""
        (fun _ => ApiResult.netError) (fun _ => 0) none = ([], Except.ok 0) := by
  refine ⟨by decide, by rfl, ?_⟩
  exact c7_create_existing_folder_noop "**Company name:** Acme" (fun _ => true) true
    ⟨"", "", "", ""⟩ "" (fun _ => ApiResult.netError) (fun _ => 0) none
    ⟨"Acme", "", "Professional"⟩ (by decide) (by rfl) (by rfl)

/-! ## C8: helpers -/

theorem data_mk (l : List Char) : (String.mk l).data = l := rfl

theorem stripPrefixCI_append {pat lbl rest : List Char}
    (h : stripPrefixCI pat lbl = some []) :
    stripPrefixCI pat (lbl ++ rest) = some rest := by
  induction pat generalizing lbl with
  | nil =>
    have : lbl = [] := by simpa [stripPrefixCI] using h
    subst this
    rfl
  | cons p ps ih =>
    cases lbl with
    | nil => simp [stripPrefixCI] at h
    | cons c cs =>
      simp only [stripPrefixCI] at h
      by_cases hc : (p.toLower == c.toLower) = true
      · rw [if_pos hc] at h
        rw [List.cons_append]
        simp only [stripPrefixCI]
        rw [if_pos hc]
        exact ih h
      · rw [if_neg hc] at h
        exact absurd h (by simp)

theorem idchar_not_ws {c : Char} (h : isLowerDigit c = true ∨ c = '-') :
    isPyWs c = false := by
  rcases h with h | rfl
  · by_contra hw
    rw [Bool.not_eq_false] at hw
    simp only [isPyWs, Bool.or_eq_true, beq_iff_eq] at hw
    rcases hw with ((((h1 | h1) | h1) | h1) | h1) | h1 <;> subst h1 <;> revert h <;> decide
  · decide

theorem idchar_CI {c : Char} (h : isLowerDigit c = true ∨ c = '-') :
    isIdCharCI c = true := by
  rcases h with h | rfl
  · simp only [isLowerDigit, Bool.or_eq_true] at h
    simp only [isIdCharCI, Bool.or_eq_true]
    rcases h with h | h
    · exact Or.inl (Or.inl (Or.inl h))
    · exact Or.inl (Or.inr h)
  · decide

theorem mem_of_head?_eq {l : List Char} {c : Char} (hc : l.head? = some c) : c ∈ l := by
  cases l with
  | nil => simp at hc
  | cons a t =>
    rw [List.head?_cons] at hc
    rw [← Option.some.inj hc]
    exact List.mem_cons_self a t

theorem dropWhile_eq_self_of_head {p : Char → Bool} {l : List Char}
    (h : ∀ c, l.head? = some c → p c = false) : l.dropWhile p = l := by
  cases l with
  | nil => rfl
  | cons a t => exact List.dropWhile_cons_of_neg (by simp [h a rfl])

theorem pyStrip_of_no_ws {l : List Char} (h : ∀ c ∈ l, isPyWs c = false) :
    pyStrip l = l := by
  have h1 : l.dropWhile isPyWs = l :=
    dropWhile_eq_self_of_head (fun c hc => h c (mem_of_head?_eq hc))
  have h2 : l.reverse.dropWhile isPyWs = l.reverse :=
    dropWhile_eq_self_of_head
      (fun c hc => h c (List.mem_reverse.mp (mem_of_head?_eq hc)))
  unfold pyStrip
  rw [h1, h2, List.reverse_reverse]

theorem takeWhile_append_eq {q : Char → Bool} {X post : List Char}
    (hX : ∀ c ∈ X, q c = true)
    (hpost : ∀ c, post.head? = some c → q c = false) :
    (X ++ post).takeWhile q = X := by
  induction X with
  | nil =>
    cases post with
    | nil => rfl
    | cons b t => simp [List.takeWhile_cons, hpost b rfl]
  | cons a t ih =>
    rw [List.cons_append, List.takeWhile_cons]
    rw [hX a (List.mem_cons_self a t)]
    rw [ih (fun c hc => hX c (List.mem_cons_of_mem _ hc))]
    simp

theorem dropWhile_append_eq {p : Char → Bool} {ws rest : List Char}
    (hws : ∀ c ∈ ws, p c = true)
    (hrest : ∀ c, rest.head? = some c → p c = false) :
    (ws ++ rest).dropWhile p = rest := by
  induction ws with
  | nil => exact dropWhile_eq_self_of_head hrest
  | cons a t ih =>
    rw [List.cons_append,
      List.dropWhile_cons_of_pos (hws a (List.mem_cons_self a t))]
    exact ih (fun c hc => hws c (List.mem_cons_of_mem _ hc))

theorem matchIdTail_spec {ws X post : List Char}
    (hws : ∀ c ∈ ws, isPyWs c = true) (hXne : X ≠ [])
    (hX : ∀ c ∈ X, isLowerDigit c = true ∨ c = '-')
    (hpost : ∀ c, post.head? = some c → isIdCharCI c = false) :
    matchIdTail (ws ++ (X ++ post)) = some X := by
  simp only [matchIdTail]
  have h1 : (ws ++ (X ++ post)).dropWhile isPyWs = X ++ post := by
    refine dropWhile_append_eq hws ?_
    intro c hc
    cases X with
    | nil => exact absurd rfl hXne
    | cons x xs =>
      rw [List.cons_append, List.head?_cons] at hc
      rw [← Option.some.inj hc]
      exact idchar_not_ws (hX x (List.mem_cons_self x xs))
  rw [h1]
  have h2 : (X ++ post).takeWhile isIdCharCI = X :=
    takeWhile_append_eq (fun c hc => idchar_CI (hX c hc)) hpost
  rw [h2]
  simp [hXne]

theorem searchCompanyId_append_eq {pre tail : List Char}
    (hpre : ∀ n, n < pre.length →
      stripPrefixCI "**Company id:**".data (List.drop n (pre ++ tail)) = none) :
    searchCompanyId (pre ++ tail) = searchCompanyId tail := by
  induction pre with
  | nil => rfl
  | cons a t ih =>
    have h0 := hpre 0 (by simp)
    rw [List.drop_zero] at h0
    rw [List.cons_append] at h0
    rw [List.cons_append]
    simp only [searchCompanyId, h0]
    refine ih ?_
    intro n hn
    have := hpre (n + 1) (by simp only [List.length_cons]; omega)
    rw [List.cons_append, List.drop_succ_cons] at this
    exact this

theorem searchCompanyId_hit {lbl ws X post : List Char}
    (hlbl : stripPrefixCI "**Company id:**".data lbl = some [])
    (hws : ∀ c ∈ ws, isPyWs c = true) (hXne : X ≠ [])
    (hX : ∀ c ∈ X, isLowerDigit c = true ∨ c = '-')
    (hpost : ∀ c, post.head? = some c → isIdCharCI c = false) :
    searchCompanyId (lbl ++ (ws ++ (X ++ post))) = some X := by
  cases lbl with
  | nil => exact absurd hlbl (by decide)
  | cons c cs =>
    have hs : stripPrefixCI "**Company id:**".data ((c :: cs) ++ (ws ++ (X ++ post))) =
        some (ws ++ (X ++ post)) := stripPrefixCI_append hlbl
    rw [List.cons_append] at hs
    rw [List.cons_append]
    simp only [searchCompanyId, hs, matchIdTail_spec hws hXne hX hpost]

/-! ## C8 -/

/-- C8: for an issue whose stripped body contains the labelled field
`**Company id:**` (the label matched up to ASCII case) followed by
whitespace and an id `X` of lowercase letters, digits and hyphens — with no
earlier position at which the label matches, and the id run ending at `X`'s
end — `parse_issue` returns the action selected by the (case-insensitive)
title prefix together with exactly `X`; and it returns an error whenever no
action prefix matches or the id pattern occurs nowhere in the body. -/
theorem c8_parse_issue_action_and_id (title body : String) (pre lbl ws X post : List Char)
    (hbody : pyStrip body.data = pre ++ (lbl ++ (ws ++ (X ++ post))))
    (hlbl : stripPrefixCI "**Company id:**".data lbl = some [])
    (hws : ∀ c ∈ ws, isPyWs c = true)
    (hXne : X ≠ [])
    (hX : ∀ c ∈ X, isLowerDigit c = true ∨ c = '-')
    (hpost : ∀ c, post.head? = some c → isIdCharCI c = false)
    (hpre : ∀ n, n < pre.length →
      stripPrefixCI "**Company id:**".data (List.drop n (pyStrip body.data)) = none) :
    ("archive company:".data.isPrefixOf (pyLower (pyStrip title.data)) = true →
      parse_issue title body = Except.ok ("archive", String.mk X)) ∧
    (¬ "archive company:".data.isPrefixOf (pyLower (pyStrip title.data)) = true →
      "restore company:".data.isPrefixOf (pyLower (pyStrip title.data)) = true →
      parse_issue title body = Except.ok ("restore", String.mk X)) ∧
    (∀ t b : String,
      ¬ "archive company:".data.isPrefixOf (pyLower (pyStrip t.data)) = true →
      ¬ "restore company:".data.isPrefixOf (pyLower (pyStrip t.data)) = true →
      ∃ e, parse_issue t b = Except.error e) ∧
    (∀ t b : String, searchCompanyId (pyStrip b.data) = none →
      ∃ e, parse_issue t b = Except.error e) := by
  have hsearch : searchCompanyId (pyStrip body.data) = some X := by
    rw [hbody] at hpre ⊢
    rw [searchCompanyId_append_eq hpre]
    exact searchCompanyId_hit hlbl hws hXne hX hpost
  have hXstrip : pyStrip X = X :=
    pyStrip_of_no_ws (fun c hc => idchar_not_ws (hX c hc))
  have hmkne : String.mk X ≠ "" := fun h => hXne (congrArg String.data h)
  refine ⟨?_, ?_, ?_, ?_⟩
  · intro ht
    simp only [parse_issue, pyStripStr, data_mk, hsearch, ht, if_true]
    rw [hXstrip, if_neg hmkne]
  · intro hn ht
    simp only [parse_issue, pyStripStr, data_mk, hsearch, if_neg hn, ht, if_true]
    rw [hXstrip, if_neg hmkne]
  · intro t b h1 h2
    refine ⟨"Could not parse action or Company id from issue.", ?_⟩
    simp only [parse_issue, pyStripStr, data_mk, if_neg h1, if_neg h2]
  · intro t b hn
    by_cases h1 : "archive company:".data.isPrefixOf (pyLower (pyStrip t.data)) = true
    · exact ⟨"Could not parse action or Company id from issue.",
        by simp only [parse_issue, pyStripStr, data_mk, hn, h1, if_true]⟩
    · by_cases h2 : "restore company:".data.isPrefixOf (pyLower (pyStrip t.data)) = true
      · exact ⟨"Could not parse action or Company id from issue.",
          by simp only [parse_issue, pyStripStr, data_mk, hn, if_neg h1, h2, if_true]⟩
      · exact ⟨"Could not parse action or Company id from issue.",
          by simp only [parse_issue, pyStripStr, data_mk, if_neg h1, if_neg h2]⟩

/-- Closed witness for C8 at a concrete archive issue. -/
theorem c8_parse_issue_action_and_id_witness :
    pyStrip "**Company id:** acme-ltd".data =
      ([] : List Char) ++ ("**Company id:**".data ++ (" ".data ++ ("acme-ltd".data ++ []))) ∧
    parse_issue "Archive company: Acme Ltd" "**Company id:** acme-ltd" =
      Except.ok ("archive", String.mk "acme-ltd".data) := by
  have H := c8_parse_issue_action_and_id "Archive company: Acme Ltd"
    "**Company id:** acme-ltd" [] "**Company id:**".data " ".data "acme-ltd".data []
    (by decide) (by decide) (by decide) (by decide) (by decide)
    (by intro c hc; simp at hc) (by intro n hn; simp at hn)
  exact ⟨by decide, H.1 (by decide)⟩

/-! ## C2: helpers -/

theorem retryable_not_2xx {c : Nat} (h : retryable c = true) : ¬ (200 ≤ c ∧ c < 300) := by
  simp only [retryable, Bool.or_eq_true, beq_iff_eq] at h
  rcases h with ((((rfl | rfl) | rfl) | rfl) | rfl) <;> omega

theorem summary_loop_retry_ok {resp : Nat → ApiResult} {jit : Nat → ℚ} {fb : String}
    {a f : Nat} {acc : List ℚ} {c : Nat} {ra : Option String} {body : Json} {s : ℚ}
    (hr : resp a = ApiResult.http c ra body) (hre : retryable c = true) (hlt : a < 5)
    (hs : pySleep (sleepChosen ra a (jit a)) = Except.ok s) :
    summary_loop fb resp jit a (f + 1) acc =
      summary_loop fb resp jit (a + 1) f (acc ++ [s]) := by
  simp only [summary_loop, hr, if_neg (retryable_not_2xx hre), hre, if_true, if_pos hlt, hs]

theorem summary_loop_retry_raise {resp : Nat → ApiResult} {jit : Nat → ℚ} {fb : String}
    {a f : Nat} {acc : List ℚ} {c : Nat} {ra : Option String} {body : Json} {e : String}
    (hr : resp a = ApiResult.http c ra body) (hre : retryable c = true) (hlt : a < 5)
    (hs : pySleep (sleepChosen ra a (jit a)) = Except.error e) :
    summary_loop fb resp jit a (f + 1) acc = Except.error e := by
  simp only [summary_loop, hr, if_neg (retryable_not_2xx hre), hre, if_true, if_pos hlt, hs]

theorem summary_loop_success_ok {resp : Nat → ApiResult} {jit : Nat → ℚ} {fb : String}
    {a f : Nat} {acc : List ℚ} {c : Nat} {ra : Option String} {body : Json} {s : String}
    (hr : resp a = ApiResult.http c ra body) (h2 : 200 ≤ c ∧ c < 300)
    (hx : extractSummary body = Except.ok s) :
    summary_loop fb resp jit a (f + 1) acc =
      Except.ok ⟨if s = "" then fb else s, a, acc⟩ := by
  simp only [summary_loop, hr, if_pos h2, hx]

theorem parseFloatQ_neg_one : parseFloatQ "-1" = some (-1) := by
  have h0 : parseFloatQ "-1" = some ((-1 : ℚ) * ((digitsToNat ['1'] : ℚ) +
      (digitsToNat ([] : List Char) : ℚ) / (10 : ℚ) ^ (List.length ([] : List Char)))) := rfl
  rw [h0, (by decide : digitsToNat ['1'] = 1),
    (by decide : digitsToNat ([] : List Char) = 0)]
  norm_num

theorem parseFloatQ_two : parseFloatQ "2" = some 2 := by
  have h0 : parseFloatQ "2" = some ((1 : ℚ) * ((digitsToNat ['2'] : ℚ) +
      (digitsToNat ([] : List Char) : ℚ) / (10 : ℚ) ^ (List.length ([] : List Char)))) := rfl
  rw [h0, (by decide : digitsToNat ['2'] = 2),
    (by decide : digitsToNat ([] : List Char) = 0)]
  norm_num

theorem pySleep_neg_one_hint :
    pySleep (sleepChosen (some "-1") 1 0) =
      Except.error "ValueError: sleep length must be non-negative" := by
  have hsc : sleepChosen (some "-1") 1 0 = -1 := by
    simp only [sleepChosen, parseFloatQ_neg_one]
    rw [if_neg (by decide : ¬ ("-1" = ""))]
  rw [hsc]
  simp only [pySleep]
  rw [if_pos (by norm_num : (-1 : ℚ) < 0)]

theorem pySleep_two_hint : pySleep (sleepChosen (some "2") 1 0) = Except.ok 2 := by
  have hsc : sleepChosen (some "2") 1 0 = 2 := by
    simp only [sleepChosen, parseFloatQ_two]
    rw [if_neg (by decide : ¬ ("2" = ""))]
  rw [hsc]
  simp only [pySleep]
  rw [if_neg (by norm_num : ¬ (2 : ℚ) < 0)]

/-! ## C2 -/

/-- C2: the claim (and the docstring at line 128 of the source, "Never
raises") says a retryable status sleeps the `retry-after` hint whenever it
is present and numeric, and that a string is returned in every case.  The
code is wrong there: `time.sleep(sleep_s)` at line 219 sits inside a `try`
whose only handler is `except requests.RequestException` (line 228), and
`float()` accepts negative numerals, so a 429 response with header
`retry-after: -1` makes `time.sleep(-1.0)` raise an uncaught `ValueError`
that escapes `openai_summary` (hints beyond the platform time range raise
`OverflowError` the same way).  First conjunct: the embedded code at the
failing input returns that error instead of sleeping, retrying and
falling back.  Second conjunct: at a well-formed input — a non-negative
hint, then a 2xx payload of the documented shape — the run behaves exactly
as the claim describes (the hint is slept, the summary extracted),
confirming the retry policy is the intent and the missing validation the
slip. -/
theorem c2_negative_retry_after_hint_raises :
    openai_summary "k" ⟨"Acme", "", "Professional"⟩ "T" "" ""
        (fun _ => ApiResult.http 429 (some "-1") (Json.obj [])) (fun _ => 0) =
      Except.error "ValueError: sleep length must be non-negative" ∧
    openai_summary "k" ⟨"Acme", "", "Professional"⟩ "T" "" ""
        (fun n => if n = 1 then ApiResult.http 429 (some "2") (Json.obj [])
          else ApiResult.http 200 none
            (Json.obj [("output", Json.arr [Json.obj [("type", Json.str "message"),
              ("content", Json.arr [Json.obj [("type", Json.str "output_text"),
                ("text", Json.str "A fine summary.")]])]])]))
        (fun _ => 0) =
      Except.ok ⟨"A fine summary.", 2, [2]⟩ := by
  have hkey : ¬ pyStripStr "k" = "" := by decide
  constructor
  · have step1 : summary_loop (fallback "Acme" "T" "")
        (fun _ : Nat => ApiResult.http 429 (some "-1") (Json.obj []))
        (fun _ : Nat => (0 : ℚ)) 1 5 [] =
        Except.error "ValueError: sleep length must be non-negative" :=
      summary_loop_retry_raise rfl (by decide) (by omega) pySleep_neg_one_hint
    simp only [openai_summary]
    rw [if_neg hkey]
    exact step1
  · have step1 : summary_loop (fallback "Acme" "T" "")
        (fun n : Nat => if n = 1 then ApiResult.http 429 (some "2") (Json.obj [])
          else ApiResult.http 200 none
            (Json.obj [("output", Json.arr [Json.obj [("type", Json.str "message"),
              ("content", Json.arr [Json.obj [("type", Json.str "output_text"),
                ("text", Json.str "A fine summary.")]])]])]))
        (fun _ : Nat => (0 : ℚ)) 1 5 [] =
        summary_loop (fallback "Acme" "T" "")
        (fun n : Nat => if n = 1 then ApiResult.http 429 (some "2") (Json.obj [])
          else ApiResult.http 200 none
            (Json.obj [("output", Json.arr [Json.obj [("type", Json.str "message"),
              ("content", Json.arr [Json.obj [("type", Json.str "output_text"),
                ("text", Json.str "A fine summary.")]])]])]))
        (fun _ : Nat => (0 : ℚ)) 2 4 ([] ++ [2]) :=
      summary_loop_retry_ok rfl (by decide) (by omega) pySleep_two_hint
    have step2 : summary_loop (fallback "Acme" "T" "")
        (fun n : Nat => if n = 1 then ApiResult.http 429 (some "2") (Json.obj [])
          else ApiResult.http 200 none
            (Json.obj [("output", Json.arr [Json.obj [("type", Json.str "message"),
              ("content", Json.arr [Json.obj [("type", Json.str "output_text"),
                ("text", Json.str "A fine summary.")]])]])]))
        (fun _ : Nat => (0 : ℚ)) 2 4 ([] ++ [2]) =
        Except.ok ⟨if "A fine summary." = "" then fallback "Acme" "T" ""
          else "A fine summary.", 2, [] ++ [2]⟩ :=
      summary_loop_success_ok rfl (by omega) rfl
    simp only [openai_summary]
    rw [if_neg hkey]
    rw [step1, step2, if_neg (by decide : ¬ ("A fine summary." = ""))]
    simp

end Scripts
